import Mathlib

/-!
Verification of the browser-side upload form controller in `static/script.js`.

The script wires two handlers:
  * a form `submit` handler that validates the inputs, POSTs a multipart body to
    `/upload-file/`, and on success exposes a download link with a derived
    filename, and on failure alerts an error message;
  * a `debugButton` click handler that POSTs the same body to `/debug-form/`
    and shows the pretty-printed JSON response.

We embed the handlers as pure functions over an explicit DOM/world state, with
the network outcome passed in as data, and prove the spec claims about them.
-/

namespace UploadForm

/-! ## JSON values (results of `JSON.parse`) -/

/-- A parsed JSON value, as produced by `resp.json()`.  Numbers are modelled as
integers (the claims only exercise integral numbers). -/
inductive Json where
  | null : Json
  | bool : Bool → Json
  | num : Int → Json
  | str : String → Json
  | arr : List Json → Json
  | obj : List (String × Json) → Json
deriving Repr

/-- JavaScript truthiness of a JSON value: `null`, `false`, `0` and `""` are
falsy; every array and object is truthy. -/
def Json.truthy : Json → Bool
  | .null => false
  | .bool b => b
  | .num n => n != 0
  | .str s => s != ""
  | .arr _ => true
  | .obj _ => true

/-- JavaScript property access `j.k`: only objects have own fields; accessing a
field of any other JSON value (or a missing field) yields `undefined`, which we
model as `none`. -/
def Json.getField : Json → String → Option Json
  | .obj fs, k => (fs.find? (fun f => f.1 == k)).map (·.2)
  | _, _ => none

/-- Truthiness of `j.k` in JavaScript: `undefined` (missing field, or a field of
a non-object) is falsy. -/
def truthyField (j : Json) (k : String) : Bool :=
  match j.getField k with
  | some v => v.truthy
  | none => false

/-- Two hex digits (lower case) of a byte, used for `\u00XX` escapes. -/
def hexDigit (n : Nat) : Char :=
  if n < 10 then Char.ofNat (48 + n) else Char.ofNat (87 + n)

/-- The `JSON.stringify` escaping of a single string character. -/
def escChar (c : Char) : String :=
  if c = '"' then "\\\""
  else if c = '\\' then "\\\\"
  else if c = '\n' then "\\n"
  else if c = '\t' then "\\t"
  else if c = '\r' then "\\r"
  else if c = '\x08' then "\\b"
  else if c = '\x0c' then "\\f"
  else if c.val < 32 then "\\u00" ++ String.mk [hexDigit (c.toNat / 16), hexDigit (c.toNat % 16)]
  else String.mk [c]

/-- The `JSON.stringify` rendering of a string literal, quotes included. -/
def quoteStr (s : String) : String :=
  "\"" ++ String.join (s.data.map escChar) ++ "\""

/-- Join pre-rendered pieces with a comma, as in compact `JSON.stringify`. -/
def joinComma : List String → String
  | [] => ""
  | [x] => x
  | x :: rest => x ++ "," ++ joinComma rest

mutual

/-- Compact `JSON.stringify j` (no indent argument). -/
def Json.stringify : Json → String
  | .null => "null"
  | .bool b => cond b "true" "false"
  | .num n => toString n
  | .str s => quoteStr s
  | .arr xs => "[" ++ stringifyItems xs ++ "]"
  | .obj fs => "\x7b" ++ stringifyMembers fs ++ "\x7d"

/-- Comma-separated compact rendering of the items of a JSON array. -/
def stringifyItems : List Json → String
  | [] => ""
  | [x] => Json.stringify x
  | x :: xs => Json.stringify x ++ "," ++ stringifyItems xs

/-- Comma-separated compact rendering of the members of a JSON object. -/
def stringifyMembers : List (String × Json) → String
  | [] => ""
  | [(k, v)] => quoteStr k ++ ":" ++ Json.stringify v
  | (k, v) :: fs => quoteStr k ++ ":" ++ Json.stringify v ++ "," ++ stringifyMembers fs

end

example : Json.stringify (.arr [.num 1, .str "x"]) = "[1,\"x\"]" := rfl
example : Json.stringify (.obj [("a", .null)]) = "\x7b\"a\":null\x7d" := rfl

/-- A run of `n` spaces, the indentation of `JSON.stringify (j, null, 2)` at depth `n/2`. -/
def indentStr (n : Nat) : String :=
  String.mk (List.replicate n ' ')

mutual

/-- The pretty-printed rendering `JSON.stringify (j, null, 2)` with two-space
indentation used for the debug output; `d` is the current nesting depth. -/
def prettyAt (d : Nat) : Json → String
  | .arr [] => "[]"
  | .obj [] => "\x7b\x7d"
  | .arr (x :: xs) =>
      "[\n" ++ prettyItems (d + 1) (x :: xs) ++ "\n" ++ indentStr (2 * d) ++ "]"
  | .obj (f :: fs) =>
      "\x7b\n" ++ prettyMembers (d + 1) (f :: fs) ++ "\n" ++ indentStr (2 * d) ++ "\x7d"
  | j => Json.stringify j

/-- Pretty-printed array items, one per line at depth `d`. -/
def prettyItems (d : Nat) : List Json → String
  | [] => ""
  | [x] => indentStr (2 * d) ++ prettyAt d x
  | x :: xs => indentStr (2 * d) ++ prettyAt d x ++ ",\n" ++ prettyItems d xs

/-- Pretty-printed object members, one per line at depth `d`. -/
def prettyMembers (d : Nat) : List (String × Json) → String
  | [] => ""
  | [(k, v)] => indentStr (2 * d) ++ quoteStr k ++ ": " ++ prettyAt d v
  | (k, v) :: fs => indentStr (2 * d) ++ quoteStr k ++ ": " ++ prettyAt d v ++ ",\n" ++ prettyMembers d fs

end

/-- The call `JSON.stringify (j, null, 2)` made by the debug handler. -/
def prettyStringify (j : Json) : String :=
  prettyAt 0 j

example : prettyStringify (.obj [("a", .num 1)]) = "\x7b\n  \"a\": 1\n\x7d" := rfl

/-! ## The download filename

The success path computes
`fname = name.replace(/\.[^\/.]+$/, "") + "_processed" + (name.match(/\.[^\/.]+$/) || "")`.
The regex matches a final dot followed by one or more characters, none of which
is a dot or a slash.  We compute the match on the reversed character list: the
candidate extension body is the maximal final run of non-dot, non-slash
characters, and it must be nonempty and immediately preceded by a dot. -/

/-- A character allowed in the body of the matched extension: the regex class
`[^\/.]` (anything but a slash or a dot). -/
def extCharOk (c : Char) : Bool :=
  c != '/' && c != '.'

/-- The match of `/\.[^\/.]+$/` computed on the reversed character list of the
filename: `some tk` means the regex matched `.` followed by `tk.reverse`.  The
maximal final run of `[^\/.]` characters is the extension body; the regex
matches exactly when that run is nonempty and is preceded by a dot. -/
def jsExtRev (rcs : List Char) : Option (List Char) :=
  let tk := rcs.takeWhile extCharOk
  if (rcs.drop tk.length).head? == some '.' && !tk.isEmpty then some tk else none

/-- The value of `name.match(/\.[^\/.]+$/)`: the matched extension (dot included), if any. -/
def jsExtMatch (name : String) : Option String :=
  (jsExtRev name.data.reverse).map (fun tk => String.mk ('.' :: tk.reverse))

/-- The suggested download filename computed by the success path:
`replace` strips the matched suffix and `(match || "")` re-appends it. -/
def fnameOf (name : String) : String :=
  let stripped :=
    match jsExtMatch name with
    | some ext => String.mk (name.data.take (name.data.length - ext.length))
    | none => name
  let matched :=
    match jsExtMatch name with
    | some ext => ext
    | none => ""
  stripped ++ "_processed" ++ matched

example : fnameOf "report.pdf" = "report_processed.pdf" := rfl
example : fnameOf "archive.tar.gz" = "archive.tar_processed.gz" := rfl
example : fnameOf "noext" = "noext_processed" := rfl
example : fnameOf ".bashrc" = "_processed.bashrc" := rfl
example : fnameOf "odd." = "odd._processed" := rfl

/-- The filename rule exactly as the claim states it: split the name at its
last dot into `base` and `ext` (the dot belonging to `ext`) whenever the name
contains a dot, and produce `base ++ "_processed" ++ ext`; with no dot produce
`name ++ "_processed"`. -/
def specFnameClaimed (name : String) : String :=
  if name.data.contains '.' then
    let afterRev := name.data.reverse.takeWhile (fun c => c != '.')
    String.mk (name.data.take (name.data.length - (afterRev.length + 1)))
      ++ "_processed" ++ String.mk ('.' :: afterRev.reverse)
  else
    name ++ "_processed"

example : specFnameClaimed "report.pdf" = "report_processed.pdf" := rfl
example : specFnameClaimed "odd." = "odd_processed." := rfl

/-- The extension split of the amended claim, on the reversed character list:
the segment after the last dot is taken as the extension body only when it is
nonempty and contains neither a dot (automatic) nor a slash; otherwise no
extension is recognized. -/
def specExtRev (rcs : List Char) : Option (List Char) :=
  let tk := rcs.takeWhile (fun c => c != '.')
  if (rcs.drop tk.length).head? == some '.' && !tk.isEmpty && !tk.any (fun c => c == '/') then
    some tk
  else none

/-- The amended filename rule: split at the last dot only when at least one
character follows it and no character after it is a dot or a slash; otherwise
the whole name is kept and `_processed` is appended with no extension. -/
def specFnameAmended (name : String) : String :=
  match specExtRev name.data.reverse with
  | some tk =>
      String.mk (name.data.take (name.data.length - (tk.length + 1)))
        ++ "_processed" ++ String.mk ('.' :: tk.reverse)
  | none => name ++ "_processed"

/-- When no slash occurs before the first dot, the run of `[^\/.]` characters
coincides with the run of non-dot characters. -/
lemma takeWhile_extCharOk_of_no_slash (l : List Char)
    (h : '/' ∉ l.takeWhile (fun c => c != '.')) :
    l.takeWhile extCharOk = l.takeWhile (fun c => c != '.') := by
  induction l with
  | nil => rfl
  | cons c l ih =>
    by_cases hc : c = '.'
    · subst hc
      simp [List.takeWhile_cons, extCharOk]
    · have hq : (c != '.') = true := by simp [hc]
      rw [List.takeWhile_cons, if_pos hq] at h
      have hcslash : c ≠ '/' := fun hcs => h (hcs ▸ List.mem_cons_self c _)
      have htail : '/' ∉ l.takeWhile (fun c => c != '.') :=
        fun hm => h (List.mem_cons_of_mem c hm)
      have hp : extCharOk c = true := by simp [extCharOk, hc, hcslash]
      rw [List.takeWhile_cons, if_pos hp, List.takeWhile_cons, if_pos hq, ih htail]

/-- When a slash occurs before the first dot, the run of `[^\/.]` characters
stops exactly at a slash. -/
lemma head_drop_of_slash (l : List Char)
    (h : '/' ∈ l.takeWhile (fun c => c != '.')) :
    (l.drop (l.takeWhile extCharOk).length).head? = some '/' := by
  induction l with
  | nil => simp at h
  | cons c l ih =>
    by_cases hc : c = '.'
    · subst hc
      simp [List.takeWhile_cons] at h
    · have hq : (c != '.') = true := by simp [hc]
      rw [List.takeWhile_cons, if_pos hq] at h
      by_cases hs : c = '/'
      · subst hs
        have hp : extCharOk '/' = false := by simp [extCharOk]
        rw [List.takeWhile_cons, if_neg (by simp [hp])]
        simp
      · have hmem : '/' ∈ l.takeWhile (fun c => c != '.') := by
          rcases List.mem_cons.mp h with hh | hh
          · exact absurd hh.symm hs
          · exact hh
        have hp : extCharOk c = true := by simp [extCharOk, hc, hs]
        rw [List.takeWhile_cons, if_pos hp]
        simpa using ih hmem

/-- The regex split of the code agrees with the amended extension split. -/
lemma jsExtRev_eq_specExtRev (rcs : List Char) : jsExtRev rcs = specExtRev rcs := by
  by_cases h : '/' ∈ rcs.takeWhile (fun c => c != '.')
  · have hhead := head_drop_of_slash rcs h
    have hany : (rcs.takeWhile (fun c => c != '.')).any (fun c => c == '/') = true := by
      rw [List.any_eq_true]
      exact ⟨'/', h, by simp⟩
    simp only [jsExtRev, specExtRev]
    rw [hhead]
    simp [hany]
  · have htk := takeWhile_extCharOk_of_no_slash rcs h
    have hany : (rcs.takeWhile (fun c => c != '.')).any (fun c => c == '/') = false := by
      rw [Bool.eq_false_iff]
      intro hcon
      rw [List.any_eq_true] at hcon
      obtain ⟨x, hx, hbe⟩ := hcon
      rw [beq_iff_eq] at hbe
      exact h (hbe ▸ hx)
    simp only [jsExtRev, specExtRev]
    rw [htk]
    simp [hany]

/-! ## The primary error message

For a non-2xx response the handler starts from `Error: <status>`, then tries
`resp.json()`; on success it upgrades the message when `j && j.error` is
truthy, else when `j && j.detail` is truthy; a JSON parse failure is swallowed.
-/

mutual

/-- JavaScript string coercion, as applied by the template literal rendering of
the error message: strings stay as they are, `null` prints `null`, objects
print `[object Object]`, arrays join their items with commas with `null` items
printing empty. -/
def jsToString : Json → String
  | .null => "null"
  | .bool b => cond b "true" "false"
  | .num n => toString n
  | .str s => s
  | .obj _ => "[object Object]"
  | .arr xs => jsToStringItems xs

/-- Comma-joined JavaScript string coercion of array items
(`Array.prototype.toString`); a `null` item contributes the empty string. -/
def jsToStringItems : List Json → String
  | [] => ""
  | [.null] => ""
  | [j] => jsToString j
  | .null :: xs => "," ++ jsToStringItems xs
  | j :: xs => jsToString j ++ "," ++ jsToStringItems xs

end

/-- The alert message of the primary handler for a non-2xx response with the
given status, where `body` is the result of `resp.json()` (`none` when the body
fails to parse as JSON). -/
def primaryErrorMessage (status : Nat) (body : Option Json) : String :=
  match body with
  | none => "Error: " ++ toString status
  | some j =>
    if j.truthy && truthyField j "error" then
      "Error: " ++ jsToString ((j.getField "error").getD .null)
    else if j.truthy && truthyField j "detail" then
      "Error: " ++ Json.stringify ((j.getField "detail").getD .null)
    else
      "Error: " ++ toString status

example : primaryErrorMessage 400 (some (.obj [("error", .str "bad input")])) = "Error: bad input" := rfl
example : primaryErrorMessage 422 (some (.obj [("detail", .obj [("field", .str "version")])]))
    = "Error: \x7b\"field\":\"version\"\x7d" := rfl
example : primaryErrorMessage 500 none = "Error: 500" := rfl

/-! ## The two handlers as state transformers

The handlers are embedded as pure functions of the form snapshot, the network
outcome (passed in as data, since the fetch result comes from outside), and the page
state.  Each returns the new page state, the list of alert messages raised, and
the request issued, if any. -/

/-- The value of a multipart form field: `FormData.append` receives either a
text value or the selected file. -/
inductive FieldValue where
  | text : String → FieldValue
  | file : String → FieldValue
deriving Repr, DecidableEq

/-- An HTTP request issued through `fetch`. -/
structure Request where
  method : String
  url : String
  fields : List (String × FieldValue)
deriving Repr, DecidableEq

/-- The snapshot of the form read by a handler: the three text inputs and the
names of the selected files (`fileInput.files`). -/
structure Inputs where
  product : String
  version : String
  app_id : String
  files : List String
deriving Repr, DecidableEq

/-- The outcome of a `fetch`: either a response with a status and a body
(`jsonBody` is the result of `resp.json()`, `none` when the body is not valid
JSON), or a transport-level failure rejecting the promise. -/
inductive NetResult where
  | response : Nat → Option Json → NetResult
  | netError : NetResult

/-- The page elements the handlers mutate. -/
structure Dom where
  debugText : String
  resultVisible : Bool
  spinnerVisible : Bool
  downloadHref : Option Nat
  downloadName : String
deriving Repr, DecidableEq

/-- The page state: the DOM plus the object-URL bookkeeping of
`URL.createObjectURL` / `URL.revokeObjectURL` (URLs are numbered in creation
order; `nextUrl` is the next fresh number). -/
structure World where
  dom : Dom
  createdUrls : List Nat
  revokedUrls : List Nat
  nextUrl : Nat
deriving Repr, DecidableEq

/-- The flag `resp.ok`: the status is in the 2xx range. -/
def respOk (status : Nat) : Bool :=
  200 ≤ status && status ≤ 299

/-- The test `/^\d+$/.test(app_id)`: nonempty and all ASCII decimal digits. -/
def jsTestDigits (s : String) : Bool :=
  !s.data.isEmpty && s.data.all Char.isDigit

/-- The multipart body both handlers assemble: `product`, `version`, `app_id`
and the selected file under the field name `file`, in this order. -/
def formBody (inp : Inputs) : List (String × FieldValue) :=
  [("product", .text inp.product), ("version", .text inp.version),
   ("app_id", .text inp.app_id), ("file", .file (inp.files.headD ""))]

/-- The form `submit` handler.  It clears the debug output and hides the result
region, validates the file and the `app_id`, and on passing both checks POSTs
the multipart body to `/upload-file/`; the response handling runs inside
`try/finally` with the spinner shown during the request. -/
def primarySubmit (inp : Inputs) (net : NetResult) (w : World) : World × List String × Option Request :=
  let w := { w with dom := { w.dom with debugText := "", resultVisible := false } }
  if inp.files.isEmpty then
    (w, ["Please select a file to upload."], none)
  else if inp.app_id == "" || !jsTestDigits inp.app_id then
    (w, ["Please choose a numeric App ID."], none)
  else
    let req : Request := { method := "POST", url := "/upload-file/", fields := formBody inp }
    let w := { w with dom := { w.dom with spinnerVisible := true } }
    let step : World × List String :=
      match net with
      | .response status body =>
        if respOk status then
          let url := w.nextUrl
          ({ w with
              createdUrls := w.createdUrls ++ [url],
              nextUrl := url + 1,
              dom := { w.dom with
                downloadHref := some url,
                downloadName := fnameOf (inp.files.headD ""),
                resultVisible := true } }, [])
        else
          (w, [primaryErrorMessage status body])
      | .netError => (w, ["Network or unexpected error while uploading."])
    let w := { step.1 with dom := { step.1.dom with spinnerVisible := false } }
    (w, step.2, some req)

/-- The `debugButton` click handler.  It clears the debug output, requires a
selected file, POSTs the same multipart body to `/debug-form/`, and shows the
pretty-printed JSON of the response (the fixed error text when the fetch or the
JSON parse rejects); the spinner is shown during the request. -/
def debugClick (inp : Inputs) (net : NetResult) (w : World) : World × List String × Option Request :=
  let w := { w with dom := { w.dom with debugText := "" } }
  if inp.files.isEmpty then
    (w, ["Please select a file to upload for debug."], none)
  else
    let req : Request := { method := "POST", url := "/debug-form/", fields := formBody inp }
    let w := { w with dom := { w.dom with spinnerVisible := true } }
    let w :=
      match net with
      | .response _ (some j) => { w with dom := { w.dom with debugText := prettyStringify j } }
      | .response _ none => { w with dom := { w.dom with debugText := "Error contacting debug endpoint." } }
      | .netError => { w with dom := { w.dom with debugText := "Error contacting debug endpoint." } }
    let w := { w with dom := { w.dom with spinnerVisible := false } }
    (w, [], some req)

/-- A primary-upload session: each step is a form snapshot together with the
network outcome of its request; the page state is threaded through. -/
def runSession (steps : List (Inputs × NetResult)) (w : World) : World :=
  steps.foldl (fun w s => (primarySubmit s.1 s.2 w).1) w

/-- A concrete initial page state, used by the witnesses. -/
def w0 : World :=
  { dom := { debugText := "", resultVisible := false, spinnerVisible := false,
             downloadHref := none, downloadName := "" },
    createdUrls := [], revokedUrls := [], nextUrl := 0 }

/-! ## The spinner timeline

For the temporal claim about the busy indicator we embed the control flow of
each handler after validation as a sequence of atomic events: the spinner is
turned on (`showSpinner()`), the request is dispatched (`fetch` is called), the
response or error is handled (the end of the `try`/`catch` body), and the
spinner is turned off (the `finally` block).  The browser interleaves the two
handlers only at `await` points, so a concurrent execution is an interleaving
of the two event sequences, and the spinner visibility is the last write. -/

/-- One atomic step of a handler body, as far as the spinner is concerned. -/
inductive SpinStep where
  | spinShow : SpinStep
  | dispatch : SpinStep
  | complete : SpinStep
  | spinHide : SpinStep
deriving Repr, DecidableEq

/-- The three outcome paths of a request. -/
inductive Outcome where
  | success : Outcome
  | appError : Outcome
  | transportError : Outcome
deriving Repr, DecidableEq

/-- The spinner-relevant event sequence of one handler run, by outcome path:
the `finally` block turns the spinner off on the success path, the application
error path and the transport error (`catch`) path alike. -/
def spinnerSteps : Outcome → List SpinStep
  | .success => [.spinShow, .dispatch, .complete, .spinHide]
  | .appError => [.spinShow, .dispatch, .complete, .spinHide]
  | .transportError => [.spinShow, .dispatch, .complete, .spinHide]

/-- An event of a concurrent execution: which handler (`fromDebug` is `true`
for the debug click) performed which step. -/
structure Ev where
  fromDebug : Bool
  step : SpinStep
deriving Repr, DecidableEq

/-- The event sequence of one handler run. -/
def actionEvents (fromDebug : Bool) (o : Outcome) : List Ev :=
  (spinnerSteps o).map (fun s => ⟨fromDebug, s⟩)

/-- The spinner visibility after a list of events: the last of the
`display = "block"` / `display = "none"` writes wins, initially hidden. -/
def spinnerAfter (t : List Ev) : Bool :=
  t.foldl
    (fun s e =>
      match e.step with
      | .spinShow => true
      | .spinHide => false
      | _ => s)
    false

/-- Whether handler `a` has dispatched its request within the events `t`. -/
def dispatched (t : List Ev) (a : Bool) : Bool :=
  t.any (fun e => e.fromDebug == a && e.step == .dispatch)

/-- Whether handler `a` has handled its response or error within `t`. -/
def handled (t : List Ev) (a : Bool) : Bool :=
  t.any (fun e => e.fromDebug == a && e.step == .complete)

/-- Whether handler `a` has a request in flight after the events `t`. -/
def inFlight (t : List Ev) (a : Bool) : Bool :=
  dispatched t a && !handled t a

/-- The relation `Interleave l r t`: `t` is an interleaving of `l` and `r` (the order within
each handler is preserved, as the event loop guarantees). -/
inductive Interleave : List Ev → List Ev → List Ev → Prop where
  | nil : Interleave [] [] []
  | left : ∀ {x l r t}, Interleave l r t → Interleave (x :: l) r (x :: t)
  | right : ∀ {x l r t}, Interleave l r t → Interleave l (x :: r) (x :: t)

/-- A concurrent schedule in which both requests are dispatched before the
primary handler completes: the primary handler then hides the spinner while the
debug request is still in flight. -/
def overlappedTrace : List Ev :=
  [⟨false, .spinShow⟩, ⟨false, .dispatch⟩, ⟨true, .spinShow⟩, ⟨true, .dispatch⟩,
   ⟨false, .complete⟩, ⟨false, .spinHide⟩, ⟨true, .complete⟩, ⟨true, .spinHide⟩]

/-! ## The claims -/

/-- Claim C1, amended: for a successful primary upload of a file named `n`, the
suggested download filename splits `n` at its last dot into `base` and `ext`
and equals `base ++ "_processed" ++ ext`, but only when at least one character
follows the last dot and no character after it is a dot or a slash; otherwise
(no dot, a trailing dot, or a slash after the last dot) the filename is
`n ++ "_processed"` with no trailing extension. -/
theorem C1_filename_amended (name : String) : fnameOf name = specFnameAmended name := by
  simp only [fnameOf, jsExtMatch, specFnameAmended, jsExtRev_eq_specExtRev]
  cases h : specExtRev name.data.reverse with
  | none => simp
  | some tk =>
      have hlen : (String.mk ('.' :: tk.reverse)).length = tk.length + 1 := by
        show ('.' :: tk.reverse).length = tk.length + 1
        simp
      simp [hlen]

/-- Claim C1, counterexample to the literal statement: the filename `odd.`
contains a dot, so the claim demands `odd_processed.` (split at the last dot),
but the code's regex does not treat a trailing dot as an extension and produces
`odd._processed`. -/
theorem C1_counterexample :
    fnameOf "odd." = "odd._processed" ∧ specFnameClaimed "odd." = "odd_processed." ∧
    fnameOf "odd." ≠ specFnameClaimed "odd." :=
  ⟨rfl, rfl, by decide⟩

/-- Claim C2, amended: the displayed message for a non-2xx primary response is
`Error: <error>` when the parsed body is truthy and its `error` field is
truthy; else `Error: <JSON-serialized detail>` when the `detail` field is
truthy; else (including a falsy parsed body, falsy fields, and a body that
fails to parse) `Error: <HTTP status code>`.  Presence of a field is not
enough: the handler tests JavaScript truthiness. -/
theorem C2_error_message_amended (status : Nat) :
    (∀ j e : Json, j.truthy = true → j.getField "error" = some e → e.truthy = true →
      primaryErrorMessage status (some j) = "Error: " ++ jsToString e) ∧
    (∀ j d : Json, j.truthy = true → truthyField j "error" = false →
      j.getField "detail" = some d → d.truthy = true →
      primaryErrorMessage status (some j) = "Error: " ++ Json.stringify d) ∧
    (∀ j : Json, (j.truthy && (truthyField j "error" || truthyField j "detail")) = false →
      primaryErrorMessage status (some j) = "Error: " ++ toString status) ∧
    primaryErrorMessage status none = "Error: " ++ toString status := by
  refine ⟨?_, ?_, ?_, rfl⟩
  · intro j e hj he het
    have herr : truthyField j "error" = true := by rw [truthyField, he]; exact het
    simp [primaryErrorMessage, hj, herr, he]
  · intro j d hj hef hd hdt
    have hdet : truthyField j "detail" = true := by rw [truthyField, hd]; exact hdt
    simp [primaryErrorMessage, hj, hef, hdet, hd]
  · intro j hcond
    cases hj : j.truthy <;> cases he : truthyField j "error" <;>
      cases hd : truthyField j "detail" <;>
      simp [primaryErrorMessage, hj, he, hd] <;> simp [hj, he, hd] at hcond

/-- Claim C2, witness: a body `{"error": "boom"}` produces `Error: boom`. -/
theorem C2_error_message_amended_witness :
    primaryErrorMessage 404 (some (.obj [("error", .str "boom")]))
      = "Error: " ++ jsToString (.str "boom") :=
  (C2_error_message_amended 404).1 _ (.str "boom") rfl rfl rfl

/-- Claim C2, counterexample to the literal statement: the body
`{"error": "", "detail": "x"}` contains the field `error` (with value `""`),
so the claim demands the message `Error: ` built from that field, but the
handler tests truthiness, skips the empty `error`, and displays the serialized
`detail` instead. -/
theorem C2_counterexample :
    (Json.obj [("error", .str ""), ("detail", .str "x")]).getField "error" = some (.str "") ∧
    primaryErrorMessage 400 (some (.obj [("error", .str ""), ("detail", .str "x")]))
      ≠ "Error: " ++ jsToString (.str "") :=
  ⟨rfl, by decide⟩

/-- Claim C3, amended: on every outcome path the busy indicator is turned on
immediately before the request is dispatched and turned off after the response
or error is handled, so for a single invocation it is visible exactly from just
before dispatch to just after handling; the guarantee also holds when the two
actions run one after the other, but not under overlapping invocation (see the
counterexample), because the indicator is a single flag without reference
counting. -/
theorem C3_spinner_amended :
    (∀ o : Outcome, spinnerSteps o = [.spinShow, .dispatch, .complete, .spinHide]) ∧
    (∀ a : Bool, ∀ o : Outcome, ∀ n : Nat, n ≤ 4 →
      (spinnerAfter ((actionEvents a o).take n) = true ↔ 1 ≤ n ∧ n ≤ 3)) ∧
    (∀ o₁ o₂ : Outcome, ∀ a : Bool, ∀ n : Nat, n ≤ 8 →
      inFlight ((actionEvents false o₁ ++ actionEvents true o₂).take n) a = true →
      spinnerAfter ((actionEvents false o₁ ++ actionEvents true o₂).take n) = true) := by
  refine ⟨?_, ?_, ?_⟩
  · intro o; cases o <;> rfl
  · intro a o; cases a <;> cases o <;> decide
  · intro o₁ o₂ a; cases o₁ <;> cases o₂ <;> cases a <;> decide

/-- Claim C3, witness: after `showSpinner` and the dispatch of a single primary
request the spinner is visible, and likewise while the first request of two
serial runs is in flight. -/
theorem C3_spinner_amended_witness :
    spinnerAfter ((actionEvents false .success).take 2) = true ∧
    spinnerAfter ((actionEvents false .success ++ actionEvents true .success).take 2) = true :=
  ⟨(C3_spinner_amended.2.1 false .success 2 (by decide)).mpr (by decide),
   C3_spinner_amended.2.2 .success .success false 2 (by decide) (by decide)⟩

/-- Claim C3, counterexample to the concurrent part: in the schedule where both
requests are dispatched before the primary handler finishes, the primary
`finally` block hides the spinner while the debug request is still in flight,
so the indicator is not visible during the whole in-flight interval. -/
theorem C3_counterexample :
    Interleave (actionEvents false .success) (actionEvents true .success) overlappedTrace ∧
    inFlight (overlappedTrace.take 6) true = true ∧
    spinnerAfter (overlappedTrace.take 6) = false :=
  ⟨.left (.left (.right (.right (.left (.left (.right (.right .nil))))))),
   by decide, by decide⟩

/-- Claim C4: for every debug submission with a file selected, whatever the
HTTP status, the debug region shows the pretty-printed JSON of the parsed
response body; on a transport failure (a rejected fetch, and likewise a body
that fails to parse, which the handler's `catch` treats the same way) it shows
the fixed text instead. -/
theorem C4_debug_output (inp : Inputs) (w : World) (status : Nat) (j : Json)
    (hfile : inp.files ≠ []) :
    (debugClick inp (.response status (some j)) w).1.dom.debugText = prettyStringify j ∧
    (debugClick inp .netError w).1.dom.debugText = "Error contacting debug endpoint." ∧
    (debugClick inp (.response status none) w).1.dom.debugText = "Error contacting debug endpoint." := by
  have hne : inp.files.isEmpty = false := by
    rw [Bool.eq_false_iff]
    intro hcon
    exact hfile (List.isEmpty_iff.mp hcon)
  refine ⟨?_, ?_, ?_⟩ <;> simp [debugClick, hne]

/-- Claim C4, witness: a 500 response whose body parses is pretty-printed. -/
theorem C4_debug_output_witness :
    (debugClick ⟨"p", "v", "7", ["doc.txt"]⟩
        (.response 500 (some (.obj [("ok", .bool false)]))) w0).1.dom.debugText
      = prettyStringify (.obj [("ok", .bool false)]) :=
  (C4_debug_output ⟨"p", "v", "7", ["doc.txt"]⟩ w0 500 (.obj [("ok", .bool false)])
    (by decide)).1

/-- Claim C5: with no file selected, both handlers raise exactly the blocking
validation alert, issue no network request, and return silently — the only
state change is the initial reset of the display regions (in particular the
spinner is never shown). -/
theorem C5_no_file (inp : Inputs) (net₁ net₂ : NetResult) (w : World)
    (h : inp.files = []) :
    (primarySubmit inp net₁ w).2.2 = none ∧
    (primarySubmit inp net₁ w).2.1 = ["Please select a file to upload."] ∧
    (primarySubmit inp net₁ w).1 =
      { w with dom := { w.dom with debugText := "", resultVisible := false } } ∧
    (debugClick inp net₂ w).2.2 = none ∧
    (debugClick inp net₂ w).2.1 = ["Please select a file to upload for debug."] ∧
    (debugClick inp net₂ w).1 = { w with dom := { w.dom with debugText := "" } } := by
  refine ⟨?_, ?_, ?_, ?_, ?_, ?_⟩ <;> simp [primarySubmit, debugClick, h]

/-- Claim C5, witness: a concrete submission with no file selected. -/
theorem C5_no_file_witness :
    (primarySubmit ⟨"p", "v", "1", []⟩ (.response 200 none) w0).2.2 = none ∧
    (debugClick ⟨"p", "v", "1", []⟩ .netError w0).2.1
      = ["Please select a file to upload for debug."] :=
  ⟨(C5_no_file ⟨"p", "v", "1", []⟩ (.response 200 none) .netError w0 rfl).1,
   (C5_no_file ⟨"p", "v", "1", []⟩ (.response 200 none) .netError w0 rfl).2.2.2.2.1⟩

/-- Claim C6: a primary submit with a file selected whose `app_id` is empty or
not composed only of decimal digits alerts and issues no request. -/
theorem C6_bad_app_id (inp : Inputs) (net : NetResult) (w : World)
    (hfile : inp.files ≠ [])
    (hbad : inp.app_id = "" ∨ inp.app_id.data.all Char.isDigit = false) :
    (primarySubmit inp net w).2.2 = none ∧
    (primarySubmit inp net w).2.1 = ["Please choose a numeric App ID."] := by
  have hne : inp.files.isEmpty = false := by
    rw [Bool.eq_false_iff]
    intro hcon
    exact hfile (List.isEmpty_iff.mp hcon)
  have hcond : (inp.app_id == "" || !jsTestDigits inp.app_id) = true := by
    rcases hbad with hb | hb
    · simp [hb]
    · simp [jsTestDigits, hb]
  constructor <;> simp [primarySubmit, hne, hcond]

/-- Claim C6, witness: `app_id = "12a"` with a file selected is rejected. -/
theorem C6_bad_app_id_witness :
    (primarySubmit ⟨"p", "v", "12a", ["f.txt"]⟩ (.response 200 none) w0).2.2 = none :=
  (C6_bad_app_id ⟨"p", "v", "12a", ["f.txt"]⟩ (.response 200 none) w0
    (by decide) (Or.inr (by decide))).1

/-- Claim C7: a debug click with a file selected always POSTs the multipart
body to `/debug-form/`, whatever the content of `app_id` — the numeric check
is enforced only on the primary path. -/
theorem C7_debug_no_app_id_check (inp : Inputs) (net : NetResult) (w : World)
    (hfile : inp.files ≠ []) :
    (debugClick inp net w).2.2 =
      some { method := "POST", url := "/debug-form/", fields := formBody inp } := by
  have hne : inp.files.isEmpty = false := by
    rw [Bool.eq_false_iff]
    intro hcon
    exact hfile (List.isEmpty_iff.mp hcon)
  simp [debugClick, hne]

/-- Claim C7, witness: a decidedly non-numeric `app_id` still produces the
debug request. -/
theorem C7_debug_no_app_id_check_witness :
    (debugClick ⟨"p", "v", "not a number", ["f.txt"]⟩ .netError w0).2.2 =
      some { method := "POST", url := "/debug-form/",
             fields := formBody ⟨"p", "v", "not a number", ["f.txt"]⟩ } :=
  C7_debug_no_app_id_check ⟨"p", "v", "not a number", ["f.txt"]⟩ .netError w0 (by decide)

/-- Claim C8: a primary submit passing both preconditions issues a POST to
`/upload-file/` whose multipart body holds exactly the four fields `product`,
`version`, `app_id` and `file`, the last carrying the selected file. -/
theorem C8_request_shape (inp : Inputs) (net : NetResult) (w : World)
    (f : String) (fs : List String) (hfiles : inp.files = f :: fs)
    (hdigits : jsTestDigits inp.app_id = true) :
    (primarySubmit inp net w).2.2 =
      some { method := "POST", url := "/upload-file/",
             fields := [("product", .text inp.product), ("version", .text inp.version),
                        ("app_id", .text inp.app_id), ("file", .file f)] } := by
  have hne : inp.files.isEmpty = false := by rw [hfiles]; rfl
  have happ : (inp.app_id == "" || !jsTestDigits inp.app_id) = false := by
    have hnemp : inp.app_id ≠ "" := by
      intro he
      rw [he] at hdigits
      exact absurd hdigits (by decide)
    simp [hdigits, hnemp]
  simp [primarySubmit, hne, happ, formBody, hfiles]

/-- Claim C8, witness: a concrete valid submission and its request body. -/
theorem C8_request_shape_witness :
    (primarySubmit ⟨"widget", "1.2", "42", ["in.bin"]⟩ (.response 200 none) w0).2.2 =
      some { method := "POST", url := "/upload-file/",
             fields := [("product", .text "widget"), ("version", .text "1.2"),
                        ("app_id", .text "42"), ("file", .file "in.bin")] } :=
  C8_request_shape ⟨"widget", "1.2", "42", ["in.bin"]⟩ (.response 200 none) w0
    "in.bin" [] rfl (by decide)

/-- Case analysis on the primary handler: a run is a validation failure (alert,
no request), a successful upload (fresh URL, result shown), or a failed request
(alert, state otherwise unchanged); the request, when issued, always has the
same shape. -/
lemma primarySubmit_shape (inp : Inputs) (net : NetResult) (w : World) :
    (∃ msg, primarySubmit inp net w =
      ({ w with dom := { w.dom with debugText := "", resultVisible := false } },
       [msg], none)) ∨
    (∃ status body, net = .response status body ∧ respOk status = true ∧
      primarySubmit inp net w =
      ({ w with
         dom := { w.dom with
                  debugText := "",
                  resultVisible := true,
                  spinnerVisible := false,
                  downloadHref := some w.nextUrl,
                  downloadName := fnameOf (inp.files.headD "") },
         createdUrls := w.createdUrls ++ [w.nextUrl],
         nextUrl := w.nextUrl + 1 },
       [], some { method := "POST", url := "/upload-file/", fields := formBody inp })) ∨
    (∃ msg, primarySubmit inp net w =
      ({ w with
         dom := { w.dom with
                  debugText := "",
                  resultVisible := false,
                  spinnerVisible := false } },
       [msg], some { method := "POST", url := "/upload-file/", fields := formBody inp })) := by
  by_cases hff : inp.files.isEmpty = true
  · exact Or.inl ⟨"Please select a file to upload.", by simp [primarySubmit, hff]⟩
  · rw [Bool.not_eq_true] at hff
    by_cases happ : (inp.app_id == "" || !jsTestDigits inp.app_id) = true
    · exact Or.inl ⟨"Please choose a numeric App ID.", by simp [primarySubmit, hff, happ]⟩
    · rw [Bool.not_eq_true] at happ
      cases net with
      | netError =>
          exact Or.inr (Or.inr ⟨"Network or unexpected error while uploading.",
            by simp [primarySubmit, hff, happ]⟩)
      | response status body =>
          by_cases hok : respOk status = true
          · exact Or.inr (Or.inl ⟨status, body, rfl, hok,
              by simp [primarySubmit, hff, happ, hok]⟩)
          · rw [Bool.not_eq_true] at hok
            exact Or.inr (Or.inr ⟨primaryErrorMessage status body,
              by simp [primarySubmit, hff, happ, hok]⟩)

/-- Case analysis on the debug handler: a run is a validation failure (alert,
no request) or a full run setting only the debug text and the spinner. -/
lemma debugClick_shape (inp : Inputs) (net : NetResult) (w : World) :
    (debugClick inp net w =
      ({ w with dom := { w.dom with debugText := "" } },
       ["Please select a file to upload for debug."], none)) ∨
    (∃ txt, debugClick inp net w =
      ({ w with dom := { w.dom with debugText := txt, spinnerVisible := false } },
       [], some { method := "POST", url := "/debug-form/", fields := formBody inp })) := by
  by_cases hff : inp.files.isEmpty = true
  · exact Or.inl (by simp [debugClick, hff])
  · rw [Bool.not_eq_true] at hff
    cases net with
    | netError =>
        exact Or.inr ⟨"Error contacting debug endpoint.", by simp [debugClick, hff]⟩
    | response status body =>
        cases body with
        | none =>
            exact Or.inr ⟨"Error contacting debug endpoint.", by simp [debugClick, hff]⟩
        | some j =>
            exact Or.inr ⟨prettyStringify j, by simp [debugClick, hff]⟩

/-- Claim C9: no operation ever revokes an object URL (`revokedUrls` is left
untouched by both handlers), the set of created URLs only grows, and each
successful primary upload creates one fresh URL and assigns it to the download
link, overwriting the previous reference without releasing it. -/
theorem C9_object_urls :
    (∀ inp net w, (primarySubmit inp net w).1.revokedUrls = w.revokedUrls ∧
      (debugClick inp net w).1.revokedUrls = w.revokedUrls ∧
      (debugClick inp net w).1.createdUrls = w.createdUrls) ∧
    (∀ inp net w, ∃ l, (primarySubmit inp net w).1.createdUrls = w.createdUrls ++ l) ∧
    (∀ inp status body w, inp.files ≠ [] → jsTestDigits inp.app_id = true →
      respOk status = true → (∀ u ∈ w.createdUrls, u < w.nextUrl) →
      (primarySubmit inp (.response status body) w).1.createdUrls
        = w.createdUrls ++ [w.nextUrl] ∧
      w.nextUrl ∉ w.createdUrls ∧
      (primarySubmit inp (.response status body) w).1.dom.downloadHref = some w.nextUrl ∧
      ∀ u ∈ (primarySubmit inp (.response status body) w).1.createdUrls,
        u < (primarySubmit inp (.response status body) w).1.nextUrl) := by
  refine ⟨?_, ?_, ?_⟩
  · intro inp net w
    refine ⟨?_, ?_, ?_⟩
    · rcases primarySubmit_shape inp net w with ⟨m, he⟩ | ⟨st, bd, hnet, hok, he⟩ | ⟨m, he⟩ <;>
        simp [he]
    · rcases debugClick_shape inp net w with he | ⟨txt, he⟩ <;> simp [he]
    · rcases debugClick_shape inp net w with he | ⟨txt, he⟩ <;> simp [he]
  · intro inp net w
    rcases primarySubmit_shape inp net w with ⟨m, he⟩ | ⟨st, bd, hnet, hok, he⟩ | ⟨m, he⟩
    · exact ⟨[], by simp [he]⟩
    · exact ⟨[w.nextUrl], by simp [he]⟩
    · exact ⟨[], by simp [he]⟩
  · intro inp status body w hfile hdig hok hinv
    have hne : inp.files.isEmpty = false := by
      rw [Bool.eq_false_iff]
      intro hcon
      exact hfile (List.isEmpty_iff.mp hcon)
    have happ : (inp.app_id == "" || !jsTestDigits inp.app_id) = false := by
      have hnemp : inp.app_id ≠ "" := by
        intro he
        rw [he] at hdig
        exact absurd hdig (by decide)
      simp [hdig, hnemp]
    refine ⟨?_, ?_, ?_, ?_⟩
    · simp [primarySubmit, hne, happ, hok]
    · intro hcon
      exact absurd (hinv _ hcon) (lt_irrefl _)
    · simp [primarySubmit, hne, happ, hok]
    · intro u hu
      simp [primarySubmit, hne, happ, hok] at hu ⊢
      rcases hu with hu | hu
      · exact Nat.lt_succ_of_lt (hinv u hu)
      · rw [hu]
        exact Nat.lt_succ_self _

/-- Claim C9, witness: a successful upload into the empty initial state creates
URL `0`, revokes nothing, and points the download link at it. -/
theorem C9_object_urls_witness :
    (primarySubmit ⟨"p", "v", "5", ["a.txt"]⟩ (.response 200 none) w0).1.createdUrls
      = w0.createdUrls ++ [w0.nextUrl] ∧
    (primarySubmit ⟨"p", "v", "5", ["a.txt"]⟩ (.response 200 none) w0).1.dom.downloadHref
      = some w0.nextUrl :=
  ⟨(C9_object_urls.2.2 ⟨"p", "v", "5", ["a.txt"]⟩ 200 none w0 (by decide) (by decide)
      (by decide) (by simp [w0])).1,
   (C9_object_urls.2.2 ⟨"p", "v", "5", ["a.txt"]⟩ 200 none w0 (by decide) (by decide)
      (by decide) (by simp [w0])).2.2.1⟩

/-- Claim C10: every primary submit — including one that fails validation and
sends no request — leaves the debug output cleared, and a validation-failing
submit leaves the result region hidden; a debug click never changes the result
region's visibility or the download link, and with no file selected it leaves
the debug output cleared. -/
theorem C10_region_resets :
    (∀ inp net w, (primarySubmit inp net w).1.dom.debugText = "") ∧
    (∀ inp net w, (primarySubmit inp net w).2.2 = none →
      (primarySubmit inp net w).1.dom.resultVisible = false) ∧
    (∀ inp net w, (debugClick inp net w).1.dom.resultVisible = w.dom.resultVisible ∧
      (debugClick inp net w).1.dom.downloadHref = w.dom.downloadHref ∧
      (debugClick inp net w).1.dom.downloadName = w.dom.downloadName) ∧
    (∀ inp net w, inp.files = [] → (debugClick inp net w).1.dom.debugText = "") := by
  refine ⟨?_, ?_, ?_, ?_⟩
  · intro inp net w
    rcases primarySubmit_shape inp net w with ⟨m, he⟩ | ⟨st, bd, hnet, hok, he⟩ | ⟨m, he⟩ <;>
      simp [he]
  · intro inp net w h
    rcases primarySubmit_shape inp net w with ⟨m, he⟩ | ⟨st, bd, hnet, hok, he⟩ | ⟨m, he⟩
    · simp [he]
    · rw [he] at h
      exact absurd h (by simp)
    · rw [he] at h
      exact absurd h (by simp)
  · intro inp net w
    rcases debugClick_shape inp net w with he | ⟨txt, he⟩ <;>
      exact ⟨by simp [he], by simp [he], by simp [he]⟩
  · intro inp net w h
    simp [debugClick, h]

/-- Claim C10, witness: a validation-failing primary submit hides the result
region, and a debug click preserves the result region's visibility. -/
theorem C10_region_resets_witness :
    (primarySubmit ⟨"p", "v", "", ["f.txt"]⟩ (.response 200 none) w0).1.dom.resultVisible
      = false ∧
    (debugClick ⟨"p", "v", "", ["f.txt"]⟩ .netError w0).1.dom.resultVisible
      = w0.dom.resultVisible :=
  ⟨C10_region_resets.2.1 ⟨"p", "v", "", ["f.txt"]⟩ (.response 200 none) w0 (by decide),
   (C10_region_resets.2.2.1 ⟨"p", "v", "", ["f.txt"]⟩ .netError w0).1⟩

end UploadForm
